import Mathlib

/-!
# Verification of the Lemonade Mini App and its WebView bridge

This development embeds, in Lean 4, the behaviour of the `elmol/lemonade`
repository: the `MiniApp` React component (`src/MiniApp.tsx`) and the
WebView request/response bridge that the bundled SDK documentation
(`llms-full.md`) and the specification describe.  The bridge itself (the
`@lemonatio/mini-app-sdk` package) ships no source in this repository, so
its components — Environment Detector, Message Codec, Correlation Table,
Bridge Client — are modelled from the specification's contracts; each such
definition says so in its doc comment.  The `MiniApp` component is embedded
directly from `src/MiniApp.tsx`.
-/

set_option autoImplicit false

namespace Lemonade

/-! ## Environment Detector

Modelled from the spec (§4.1) and the `isWebView` documentation in
`llms-full.md` ("Detection Methods"): the detector probes the global
execution context for the host's markers. -/

/-- A global execution context (the browser `window`), carrying exactly the
signals the detector probes: whether `window.ReactNativeWebView` exists,
the user-agent string, and the CSS classes of the document root element. -/
structure WindowContext where
  hasReactNativeWebView : Bool
  userAgent : String
  rootClasses : List String
  deriving DecidableEq, Repr

/-- The execution environment: `window? = none` models server-side /
headless evaluation where no global execution context exists. -/
structure JsEnv where
  window? : Option WindowContext
  deriving DecidableEq, Repr

/-- `matchesAt needle hay` is true when `hay` starts with `needle`. -/
def matchesAt : List Char → List Char → Bool
  | [], _ => true
  | _ :: _, [] => false
  | n :: ns, h :: hs => n == h && matchesAt ns hs

/-- `containsMarker needle hay` is true when `needle` occurs as a
contiguous substring of `hay`. -/
def containsMarker (needle : List Char) : List Char → Bool
  | [] => needle.isEmpty
  | h :: hs => matchesAt needle (h :: hs) || containsMarker needle hs

/-- The host's marker token, used by all three probes. -/
def rnMarker : String := "ReactNativeWebView"

/-- Probe (a): a host-provided native bridge object
(`window.ReactNativeWebView`) exists in the global scope. -/
def probeBridgeObject (w : WindowContext) : Bool :=
  w.hasReactNativeWebView

/-- Probe (b): the runtime's identifying string (the user agent) contains
the host's marker token. -/
def probeUserAgent (w : WindowContext) : Bool :=
  containsMarker rnMarker.data w.userAgent.data

/-- Probe (c): the root UI element carries the host's marker as a
structural tag (CSS class on the document root). -/
def probeRootClass (w : WindowContext) : Bool :=
  w.rootClasses.contains rnMarker

/-- Modelled from the spec: `isWebView` / `detect` — returns true when any
of the three probes holds, and false unconditionally when no global
execution context exists.  (The SDK source is not in this repository;
this follows §4.1 of the spec and the documented Detection Methods.) -/
def isWebView (env : JsEnv) : Bool :=
  match env.window? with
  | none => false
  | some w => probeBridgeObject w || probeUserAgent w || probeRootClass w

/-! ## Message Codec

Modelled from the spec (§4.2): `encode` serializes the envelope structure
to a flat text format (action, requestId, payload), fully reversible;
`decode` distinguishes a malformed envelope from a foreign message not
meant for this bridge. -/

/-- The unit of exchange over the bridge: action name, correlation id, and
an action-specific payload, opaque to the bridge. -/
structure Envelope where
  action : String
  requestId : String
  payload : String
  deriving DecidableEq, Repr

/-- Outcome of decoding a raw channel message: a well-formed envelope, a
malformed envelope, or a foreign message not meant for this bridge. -/
inductive DecodeOutcome where
  | ok (e : Envelope)
  | malformed
  | foreign
  deriving DecidableEq, Repr

/-- The fixed tag identifying messages of this bridge on the shared
channel; anything not starting with it is a foreign message. -/
def bridgeTag : String := "LEMONBRIDGE1;"

/-- `stripTag tag l` removes the leading occurrence of `tag` from `l`, or
returns `none` when `l` does not start with `tag`. -/
def stripTag : List Char → List Char → Option (List Char)
  | [], rest => some rest
  | _ :: _, [] => none
  | t :: ts, c :: cs => if c = t then stripTag ts cs else none

/-- Splits a character list at its first newline; `none` when no newline
occurs. -/
def splitNl : List Char → Option (List Char × List Char)
  | [] => none
  | c :: cs =>
    if c = '\n' then some ([], cs)
    else
      match splitNl cs with
      | some (a, b) => some (c :: a, b)
      | none => none

/-- Modelled from the spec: `encode` — the flat text format is the bridge
tag, then the action and requestId terminated by newlines, then the
payload (which, coming last, may itself contain newlines). -/
def encode (e : Envelope) : String :=
  ⟨bridgeTag.data ++ (e.action.data ++ '\n' :: (e.requestId.data ++ '\n' :: e.payload.data))⟩

/-- Modelled from the spec: `decode` — strips the bridge tag (absence
means a foreign message), then reads the newline-terminated action and
requestId; a missing field or empty action is a malformed envelope. -/
def decode (raw : String) : DecodeOutcome :=
  match stripTag bridgeTag.data raw.data with
  | none => .foreign
  | some rest =>
    match splitNl rest with
    | none => .malformed
    | some (act, r₁) =>
      if act = [] then .malformed
      else
        match splitNl r₁ with
        | none => .malformed
        | some (rid, pl) => .ok ⟨⟨act⟩, ⟨rid⟩, ⟨pl⟩⟩

/-- A well-formed request envelope: the required `action` field is
non-empty, and the newline-terminated fields are newline-free (the
payload, serialized last, is unrestricted). -/
def WellFormed (e : Envelope) : Prop :=
  e.action.data ≠ [] ∧ '\n' ∉ e.action.data ∧ '\n' ∉ e.requestId.data

instance : DecidablePred WellFormed := fun e => by
  unfold WellFormed; infer_instance

/-! ## Correlation Table

Modelled from the spec (§4.3): in-flight requests keyed by a unique
request identifier.  The completion handle of each pending request is
modelled by the `completions` log: completing a handle with a result
appends a `(requestId, result)` entry, so a handle completed exactly once
contributes exactly one entry for its id.  The timeout timer of a pending
request is modelled by the `fireTimeout` event, which (like a cancelled
timer) has no effect once the request has left the table. -/

/-- Tri-state outcome of a bridge action (spec §3): SUCCESS carries
action-specific data, FAILED carries a structured error (message +
machine-readable code), CANCELLED carries no payload. -/
inductive TransactionResult where
  | success (data : List (String × String))
  | failed (message : String) (code : String)
  | cancelled
  deriving DecidableEq, Repr

/-- Fixed machine-readable error codes (spec §7 error taxonomy). -/
def envErrorCode : String := "NOT_IN_EXPECTED_HOST"

/-- Error code of a local parameter-validation failure. -/
def validationErrorCode : String := "VALIDATION_ERROR"

/-- Error code of a request whose timeout elapsed without a response. -/
def timeoutErrorCode : String := "TIMEOUT"

/-- The fixed FAILED result of an operation invoked outside the expected
host. -/
def envFailedResult : TransactionResult :=
  .failed "not in expected host" envErrorCode

/-- The FAILED result delivered when a pending request times out. -/
def timeoutResult : TransactionResult :=
  .failed "request timed out" timeoutErrorCode

/-- Bridge-side bookkeeping for an in-flight action (spec §3): correlation
id, action name, creation timestamp, the deadline of its timeout timer,
and the `cancelled` flag. -/
structure PendingRequest where
  requestId : Nat
  action : String
  createdAt : Nat
  deadline : Nat
  cancelled : Bool
  deriving DecidableEq, Repr

/-- The Correlation Table's state: the fresh-id counter, the table of
pending requests, and the log of handle completions (each completion of a
caller's handle appends one entry). -/
structure CorrelationTable where
  nextId : Nat
  pending : List PendingRequest
  completions : List (Nat × TransactionResult)
  deriving DecidableEq, Repr

/-- The empty Correlation Table at process start. -/
def CorrelationTable.empty : CorrelationTable := ⟨0, [], []⟩

/-- Whether the table holds a pending request with the given id. -/
def containsId (l : List PendingRequest) (id : Nat) : Bool :=
  l.any fun p => p.requestId == id

/-- Removes every pending request with the given id from the table. -/
def removePending (l : List PendingRequest) (id : Nat) : List PendingRequest :=
  l.filter fun p => p.requestId != id

/-- How many times the handle of request `id` has been completed. -/
def countCompleted (tbl : CorrelationTable) (id : Nat) : Nat :=
  (tbl.completions.filter fun c => c.1 == id).length

/-- Modelled from the spec: `register` — generates a fresh unique
`requestId` from the monotonically increasing counter, creates a
PendingRequest whose timer deadline is `now + timeoutMs`, and returns the
id whose handle the caller awaits. -/
def register (tbl : CorrelationTable) (action : String) (now timeoutMs : Nat) :
    Nat × CorrelationTable :=
  (tbl.nextId,
   { tbl with
       nextId := tbl.nextId + 1
       pending := ⟨tbl.nextId, action, now, now + timeoutMs, false⟩ :: tbl.pending })

/-- Modelled from the spec: `resolve` — looks the PendingRequest up by
`requestId`; if found, cancels its timer, removes it from the table and
completes its handle with the supplied result; if not found
(unknown/duplicate/late response) the call is a no-op. -/
def resolve (tbl : CorrelationTable) (id : Nat) (r : TransactionResult) :
    CorrelationTable :=
  if containsId tbl.pending id then
    { tbl with
        pending := removePending tbl.pending id
        completions := (id, r) :: tbl.completions }
  else tbl

/-- Modelled from the spec: timeout expiry — if the request is still
pending, it is removed and its handle completes with the FAILED timeout
result; once the request has been resolved (and its timer cancelled) the
firing is a no-op. -/
def fireTimeout (tbl : CorrelationTable) (id : Nat) : CorrelationTable :=
  if containsId tbl.pending id then
    { tbl with
        pending := removePending tbl.pending id
        completions := (id, timeoutResult) :: tbl.completions }
  else tbl

/-- Modelled from the spec: `cancelAll` — at environment teardown every
still-pending request completes with CANCELLED and the table empties. -/
def cancelAll (tbl : CorrelationTable) : CorrelationTable :=
  { tbl with
      pending := []
      completions := (tbl.pending.map fun p => (p.requestId, TransactionResult.cancelled))
        ++ tbl.completions }

/-- An operation the process may perform on the Correlation Table during
its lifetime; a list of these is an arbitrary interleaving of
registrations, responses, timeout firings and teardowns. -/
inductive TableOp where
  | regOp (action : String) (now timeoutMs : Nat)
  | resolveOp (id : Nat) (r : TransactionResult)
  | timeoutOp (id : Nat)
  | cancelAllOp

/-- Applies one table operation to the Correlation Table. -/
def applyOp (tbl : CorrelationTable) : TableOp → CorrelationTable
  | .regOp a now t => (register tbl a now t).2
  | .resolveOp id r => resolve tbl id r
  | .timeoutOp id => fireTimeout tbl id
  | .cancelAllOp => cancelAll tbl

/-- Runs a sequence of table operations, left to right. -/
def runOps (tbl : CorrelationTable) (ops : List TableOp) : CorrelationTable :=
  ops.foldl applyOp tbl

/-! ## Bridge Client

Modelled from the spec (§4.4): one operation per action kind.  Each
`perform` either short-circuits to an immediate TransactionResult (the
environment gate, or local parameter validation) or registers a pending
request, sends exactly one encoded envelope over the channel, and leaves
the caller awaiting the request's handle. -/

/-- The four bridge actions (`llms-full.md`, spec §6). -/
inductive Action where
  | AUTHENTICATE
  | DEPOSIT
  | WITHDRAW
  | CALL_SMART_CONTRACT
  deriving DecidableEq, Repr

/-- The wire name of each action. -/
def Action.name : Action → String
  | .AUTHENTICATE => "AUTHENTICATE"
  | .DEPOSIT => "DEPOSIT"
  | .WITHDRAW => "WITHDRAW"
  | .CALL_SMART_CONTRACT => "CALL_SMART_CONTRACT"

/-- What `perform` did: resolved immediately with a local result (no send,
no registration), or registered request `requestId`, sent its envelope,
and left the caller awaiting. -/
inductive PerformOutcome where
  | immediate (r : TransactionResult)
  | awaiting (requestId : Nat)
  deriving DecidableEq, Repr

/-- The world a bridge operation acts on: the sensed environment, the
Correlation Table, and the log of messages sent over the channel. -/
structure BridgeWorld where
  env : JsEnv
  table : CorrelationTable
  sent : List String
  deriving DecidableEq, Repr

/-- Registers a pending request and sends its encoded envelope over the
channel (the common tail of every non-short-circuited `perform`). -/
def sendRequest (w : BridgeWorld) (a : Action) (payload : String) (now timeoutMs : Nat) :
    PerformOutcome × BridgeWorld :=
  let reg := register w.table a.name now timeoutMs
  (.awaiting reg.1,
   { w with
       table := reg.2
       sent := encode ⟨a.name, toString reg.1, payload⟩ :: w.sent })

/-- Modelled from the spec: the authenticate nonce rule — if present, the
nonce must be at least 8 alphanumeric characters. -/
def nonceOk : Option String → Bool
  | none => true
  | some n => decide (8 ≤ n.length) && n.data.all Char.isAlphanum

/-- Modelled from the spec: `authenticate` — environment gate first, then
local nonce validation, then register-and-send. -/
def authenticate (w : BridgeWorld) (nonce : Option String) (now timeoutMs : Nat) :
    PerformOutcome × BridgeWorld :=
  if isWebView w.env then
    if nonceOk nonce then
      sendRequest w .AUTHENTICATE (match nonce with | some n => "nonce=" ++ n | none => "")
        now timeoutMs
    else
      (.immediate (.failed "nonce must be at least 8 alphanumeric characters"
        validationErrorCode), w)
  else (.immediate envFailedResult, w)

/-- Modelled from the spec: `deposit` — environment gate, then
register-and-send; amount/token pass through unvalidated. -/
def deposit (w : BridgeWorld) (amount tokenName : String) (now timeoutMs : Nat) :
    PerformOutcome × BridgeWorld :=
  if isWebView w.env then
    sendRequest w .DEPOSIT ("amount=" ++ amount ++ ";tokenName=" ++ tokenName) now timeoutMs
  else (.immediate envFailedResult, w)

/-- Modelled from the spec: `withdraw` — environment gate, then
register-and-send; amount/token pass through unvalidated. -/
def withdraw (w : BridgeWorld) (amount tokenName : String) (now timeoutMs : Nat) :
    PerformOutcome × BridgeWorld :=
  if isWebView w.env then
    sendRequest w .WITHDRAW ("amount=" ++ amount ++ ";tokenName=" ++ tokenName) now timeoutMs
  else (.immediate envFailedResult, w)

/-- Modelled from the spec: `callSmartContract` — environment gate, then
register-and-send; parameters pass through unvalidated. -/
def callSmartContract (w : BridgeWorld)
    (contractAddress functionName functionParams value : String) (now timeoutMs : Nat) :
    PerformOutcome × BridgeWorld :=
  if isWebView w.env then
    sendRequest w .CALL_SMART_CONTRACT
      ("to=" ++ contractAddress ++ ";fn=" ++ functionName ++ ";args=" ++ functionParams
        ++ ";value=" ++ value) now timeoutMs
  else (.immediate envFailedResult, w)

/-! ## The MiniApp component

Embedded from `src/MiniApp.tsx`.  The component's hook state is
`(wallet, isLoading, message)`; the two async handlers are embedded as
state-transition functions whose extra argument is what the awaited SDK
call did (returned a response, or threw); `render` is the component body
after the hooks, including the early `!isWebView()` return. -/

/-- What the awaited `authenticate()` call produced, per the documented
`AuthenticateResponse` shape: SUCCESS with `{wallet, signature, message}`,
FAILED with an `error` string, or CANCELLED. -/
inductive AuthResponse where
  | success (wallet signature message : String)
  | failed (error : String)
  | cancelled
  deriving DecidableEq, Repr

/-- What the awaited `deposit(...)` call produced, per the documented
`DepositResponse` shape: SUCCESS with `{txHash}`, FAILED with a structured
`error.message`, or CANCELLED. -/
inductive DepositResponse where
  | success (txHash : String)
  | failed (errorMessage : String)
  | cancelled
  deriving DecidableEq, Repr

/-- An awaited SDK call either returns a response or throws an error. -/
inductive SdkOutcome (ρ : Type) where
  | ok (response : ρ)
  | thrown (err : String)
  deriving DecidableEq, Repr

/-- The component's hook state: `useState` wallet (undefined initially),
`useState` isLoading (false), `useState` message (empty). -/
structure MiniAppState where
  wallet : Option String
  isLoading : Bool
  message : String
  deriving DecidableEq, Repr

/-- The state on mount: `wallet = undefined`, `isLoading = false`,
`message = ''` (`src/MiniApp.tsx` lines 5–7). -/
def initialMiniAppState : MiniAppState := ⟨none, false, ""⟩

/-- `handleAuthentication` (`src/MiniApp.tsx` lines 9–28): sets isLoading,
awaits `authenticate()`, branches on the result, catches a thrown error
into the message, and in `finally` clears isLoading. -/
def handleAuthentication (s : MiniAppState) (res : SdkOutcome AuthResponse) :
    MiniAppState :=
  let s₁ := { s with isLoading := true }
  let s₂ :=
    match res with
    | .ok (.success w _ _) =>
        { s₁ with wallet := some w, message := "Authentication successful!" }
    | .ok (.failed e) => { s₁ with message := "Authentication failed: " ++ e }
    | .ok .cancelled => { s₁ with message := "Authentication cancelled by user" }
    | .thrown _ => { s₁ with message := "Authentication error occurred" }
  { s₂ with isLoading := false }

/-- `handleDeposit` (`src/MiniApp.tsx` lines 34–58): sets isLoading and a
progress message, awaits `deposit({amount: '100', tokenName: USDC})`,
branches on the result, catches a thrown error into the message, and in
`finally` clears isLoading. -/
def handleDeposit (s : MiniAppState) (res : SdkOutcome DepositResponse) :
    MiniAppState :=
  let s₁ := { s with isLoading := true, message := "Processing deposit..." }
  let s₂ :=
    match res with
    | .ok (.success tx) => { s₁ with message := "Deposit successful! TX: " ++ tx }
    | .ok (.failed em) => { s₁ with message := "Deposit failed: " ++ em }
    | .ok .cancelled => { s₁ with message := "Deposit cancelled by user" }
    | .thrown _ => { s₁ with message := "Deposit error occurred" }
  { s₂ with isLoading := false }

/-- JavaScript truthiness of the `wallet` state: `!wallet` is true when
wallet is `undefined` or the empty string. -/
def walletFalsy : Option String → Bool
  | none => true
  | some w => w == ""

/-- The rendered output: the "Not in Lemon Cash" screen (no actions), or
the app screen, of which the claims use the deposit button's `disabled`
attribute (`disabled={!wallet || isLoading}`, `src/MiniApp.tsx` line 96)
and its label. -/
inductive View where
  | notWebView
  | app (depositDisabled : Bool) (buttonLabel : String)
  deriving DecidableEq, Repr

/-- The component body after the hooks (`src/MiniApp.tsx` lines 60–115):
the early return on `!isWebView()`, else the app screen with the deposit
button. -/
def render (env : JsEnv) (s : MiniAppState) : View :=
  if !isWebView env then .notWebView
  else .app (walletFalsy s.wallet || s.isLoading)
    (if s.isLoading then "Processing..." else "Send 100 USDC")

/-- Whether the rendered view lets the user initiate a deposit: the app
screen is shown and its deposit button is not disabled. -/
def depositEnabled : View → Bool
  | .notWebView => false
  | .app disabled _ => !disabled

/-- The SDK calls a mounted component can issue. -/
inductive SdkCall where
  | authenticateCall
  | depositCall (amount tokenName : String)
  deriving DecidableEq, Repr

/-- Mounting the component: React runs the hooks (lines 5–32), renders the
body once from the initial state, and then runs the `useEffect` with `[]`
deps exactly once — the effect is declared before the `!isWebView()` early
return (line 60), which sits in the render body and gates only the output,
so `handleAuthentication` (hence one `authenticate()` call) runs on every
mount, whatever the environment. -/
def mount (env : JsEnv) : View × List SdkCall :=
  (render env initialMiniAppState, [SdkCall.authenticateCall])

/-! ## Helper lemmas -/

theorem stripTag_append (t rest : List Char) : stripTag t (t ++ rest) = some rest := by
  induction t with
  | nil => rfl
  | cons c cs ih => simp [stripTag, ih]

theorem splitNl_append {xs : List Char} (ys : List Char) (h : '\n' ∉ xs) :
    splitNl (xs ++ '\n' :: ys) = some (xs, ys) := by
  induction xs with
  | nil => simp [splitNl]
  | cons c cs ih =>
    have hc : c ≠ '\n' := fun hc => h (hc ▸ List.mem_cons_self c cs)
    have hcs : '\n' ∉ cs := fun hm => h (List.mem_cons_of_mem c hm)
    simp [splitNl, hc, ih hcs]

theorem containsId_removePending (l : List PendingRequest) (id : Nat) :
    containsId (removePending l id) id = false := by
  induction l with
  | nil => rfl
  | cons p ps ih =>
    rcases eq_or_ne p.requestId id with hp | hp
    · simp only [removePending, List.filter_cons, hp, bne_self_eq_false]
      exact ih
    · simp [removePending, containsId, List.filter_cons, hp, ih]

theorem nextId_le_applyOp (tbl : CorrelationTable) (op : TableOp) :
    tbl.nextId ≤ (applyOp tbl op).nextId := by
  cases op with
  | regOp a now t => exact Nat.le_succ _
  | resolveOp id r =>
    show tbl.nextId ≤ (resolve tbl id r).nextId
    unfold resolve; split <;> exact Nat.le_refl _
  | timeoutOp id =>
    show tbl.nextId ≤ (fireTimeout tbl id).nextId
    unfold fireTimeout; split <;> exact Nat.le_refl _
  | cancelAllOp => exact Nat.le_refl _

theorem nextId_le_runOps (tbl : CorrelationTable) (ops : List TableOp) :
    tbl.nextId ≤ (runOps tbl ops).nextId := by
  induction ops generalizing tbl with
  | nil => exact Nat.le_refl _
  | cons op ops ih => exact Nat.le_trans (nextId_le_applyOp tbl op) (ih (applyOp tbl op))

theorem find?_filter_of_imp {α : Type} (p q : α → Bool) (l : List α)
    (h : ∀ x, p x = true → q x = true) :
    (l.filter q).find? p = l.find? p := by
  induction l with
  | nil => rfl
  | cons x xs ih =>
    by_cases hq : q x = true
    · by_cases hp : p x = true
      · simp [List.filter_cons, hq, List.find?_cons, hp]
      · simp [List.filter_cons, hq, List.find?_cons,
          Bool.eq_false_iff.mpr hp, ih]
    · have hp : p x = false := by
        cases hpx : p x
        · rfl
        · exact absurd (h x hpx) hq
      simp [List.filter_cons, Bool.eq_false_iff.mpr hq, List.find?_cons, hp, ih]

theorem any_filter_of_imp {α : Type} (p q : α → Bool) (l : List α)
    (h : ∀ x, p x = true → q x = true) :
    (l.filter q).any p = l.any p := by
  induction l with
  | nil => rfl
  | cons x xs ih =>
    by_cases hq : q x = true
    · simp [List.filter_cons, hq, List.any_cons, ih]
    · have hp : p x = false := by
        cases hpx : p x
        · rfl
        · exact absurd (h x hpx) hq
      simp [List.filter_cons, Bool.eq_false_iff.mpr hq, List.any_cons, hp, ih]

/-! ## The claims -/

/-- C4: for every well-formed request envelope `e`, `decode (encode e)`
succeeds and returns an envelope equal to `e`: the codec round-trips. -/
theorem codec_round_trip (e : Envelope) (h : WellFormed e) :
    decode (encode e) = .ok e := by
  obtain ⟨h₁, h₂, h₃⟩ := h
  show decode ⟨bridgeTag.data ++ _⟩ = _
  simp only [decode, stripTag_append, splitNl_append _ h₂, splitNl_append _ h₃, if_neg h₁]

/-- Witness for C4: a concrete well-formed envelope round-trips. -/
theorem codec_round_trip_witness :
    WellFormed ⟨"AUTHENTICATE", "1", "nonce=l3m0nc45h"⟩ ∧
      decode (encode ⟨"AUTHENTICATE", "1", "nonce=l3m0nc45h"⟩) =
        .ok ⟨"AUTHENTICATE", "1", "nonce=l3m0nc45h"⟩ :=
  ⟨by decide, codec_round_trip _ (by decide)⟩

/-- C7: `isWebView` (a pure, hence side-effect-free, function of the
sensed environment) returns true iff a global execution context exists and
at least one of the three probes — native bridge object present, marker in
the runtime's identifying string, marker on the root UI element — holds;
it returns false unconditionally when no global execution context
exists. -/
theorem isWebView_characterisation :
    (∀ env : JsEnv, isWebView env = true ↔
      ∃ w, env.window? = some w ∧
        (probeBridgeObject w = true ∨ probeUserAgent w = true ∨ probeRootClass w = true)) ∧
    (∀ env : JsEnv, env.window? = none → isWebView env = false) := by
  constructor
  · rintro ⟨win⟩
    cases win with
    | none => simp [isWebView]
    | some w => simp [isWebView, Bool.or_eq_true, or_assoc]
  · rintro ⟨win⟩ h
    simp only at h
    simp [isWebView, h]

/-- Witness for C7: headless evaluation (no global context) yields false. -/
theorem isWebView_characterisation_witness : isWebView ⟨none⟩ = false :=
  isWebView_characterisation.2 ⟨none⟩ rfl

/-- C1: when the Environment Detector reports false at the moment
`perform` is invoked, every bridge action resolves immediately to the
FAILED result with the fixed environment error code and leaves the world
(sent messages, Correlation Table) exactly unchanged — the short-circuit
precedes any use of the Codec or Correlation Table. -/
theorem perform_env_gate (w : BridgeWorld) (nonce : Option String)
    (amount tokenName amount₂ tokenName₂ addr fn args value : String)
    (now timeoutMs : Nat) (h : isWebView w.env = false) :
    authenticate w nonce now timeoutMs = (.immediate envFailedResult, w) ∧
    deposit w amount tokenName now timeoutMs = (.immediate envFailedResult, w) ∧
    withdraw w amount₂ tokenName₂ now timeoutMs = (.immediate envFailedResult, w) ∧
    callSmartContract w addr fn args value now timeoutMs = (.immediate envFailedResult, w) := by
  refine ⟨?_, ?_, ?_, ?_⟩ <;>
    simp [authenticate, deposit, withdraw, callSmartContract, h]

/-- Witness for C1: a headless world gates every action to the fixed
environment failure, leaving the world untouched. -/
theorem perform_env_gate_witness :
    isWebView (⟨⟨none⟩, .empty, []⟩ : BridgeWorld).env = false ∧
      authenticate ⟨⟨none⟩, .empty, []⟩ none 0 30000 =
        (.immediate envFailedResult, ⟨⟨none⟩, .empty, []⟩) :=
  ⟨rfl, (perform_env_gate ⟨⟨none⟩, .empty, []⟩ none "" "" "" "" "" "" "" "" 0 30000 rfl).1⟩

/-- C2: a pending request completes exactly once.  When its timeout
expires first, its handle completes with the FAILED timeout result exactly
once (one new completion entry), the request leaves the table, and a
subsequent late `resolve` is a no-op; conversely, after a `resolve` the
timeout firing is a no-op — whichever of resolve and timeout occurs first
wins. -/
theorem pending_completes_exactly_once (tbl : CorrelationTable) (id : Nat)
    (r : TransactionResult) (h : containsId tbl.pending id = true) :
    (fireTimeout tbl id).completions = (id, timeoutResult) :: tbl.completions ∧
    containsId (fireTimeout tbl id).pending id = false ∧
    countCompleted (fireTimeout tbl id) id = countCompleted tbl id + 1 ∧
    resolve (fireTimeout tbl id) id r = fireTimeout tbl id ∧
    fireTimeout (resolve tbl id r) id = resolve tbl id r := by
  have hrm := containsId_removePending tbl.pending id
  refine ⟨?_, ?_, ?_, ?_, ?_⟩
  · simp [fireTimeout, h]
  · simp [fireTimeout, h, hrm]
  · simp [fireTimeout, h, countCompleted, List.filter_cons]
  · simp [resolve, fireTimeout, h, hrm]
  · simp [resolve, fireTimeout, h, hrm]

/-- Witness for C2: a table holding one pending request, whose timeout
fires, gains exactly the FAILED timeout completion. -/
theorem pending_completes_exactly_once_witness :
    containsId (⟨1, [⟨0, "DEPOSIT", 5, 35, false⟩], []⟩ : CorrelationTable).pending 0 = true ∧
      (fireTimeout ⟨1, [⟨0, "DEPOSIT", 5, 35, false⟩], []⟩ 0).completions =
        [(0, timeoutResult)] :=
  ⟨by decide,
    (pending_completes_exactly_once ⟨1, [⟨0, "DEPOSIT", 5, 35, false⟩], []⟩ 0
      .cancelled (by decide)).1⟩

/-- C3: `resolve` with a requestId absent from the Correlation Table
(unknown, already resolved, or already timed out) is a no-op: the table,
every other pending request, and the completion log are unchanged (and,
being a total function, it cannot throw). -/
theorem resolve_unknown_noop (tbl : CorrelationTable) (id : Nat)
    (r : TransactionResult) (h : containsId tbl.pending id = false) :
    resolve tbl id r = tbl := by
  simp [resolve, h]

/-- Witness for C3: resolving an unknown id against the empty table does
nothing. -/
theorem resolve_unknown_noop_witness :
    containsId (CorrelationTable.empty).pending 7 = false ∧
      resolve CorrelationTable.empty 7 .cancelled = CorrelationTable.empty :=
  ⟨by decide, resolve_unknown_noop CorrelationTable.empty 7 .cancelled (by decide)⟩

/-- C5: a present nonce that is shorter than 8 characters or contains a
non-alphanumeric character makes `authenticate` resolve immediately to a
FAILED result with the world unchanged (no message sent, no pending
entry); when the Environment Detector reports true, that FAILED result is
precisely the local validation failure. -/
theorem authenticate_local_validation (w : BridgeWorld) (n : String)
    (now timeoutMs : Nat)
    (h : n.length < 8 ∨ ∃ c ∈ n.data, c.isAlphanum = false) :
    (∃ m c, (authenticate w (some n) now timeoutMs).1 = .immediate (.failed m c)) ∧
    (authenticate w (some n) now timeoutMs).2 = w ∧
    (isWebView w.env = true →
      authenticate w (some n) now timeoutMs =
        (.immediate (.failed "nonce must be at least 8 alphanumeric characters"
          validationErrorCode), w)) := by
  have hno : nonceOk (some n) = false := by
    rcases h with h₁ | ⟨c, hc, hc₂⟩
    · simp [nonceOk, Nat.not_le.mpr h₁]
    · have hall : ¬(n.data.all Char.isAlphanum = true) := by
        rw [List.all_eq_true]
        intro hall
        have := hall c hc
        simp [hc₂] at this
      simp [nonceOk, Bool.eq_false_iff.mpr hall]
  by_cases henv : isWebView w.env
  · refine ⟨⟨"nonce must be at least 8 alphanumeric characters",
      validationErrorCode, ?_⟩, ?_, fun _ => ?_⟩ <;> simp [authenticate, henv, hno]
  · refine ⟨⟨"not in expected host", envErrorCode, ?_⟩, ?_, fun hc => absurd hc henv⟩ <;>
      simp [authenticate, henv, envFailedResult]

/-- Witness for C5: the 3-character nonce "abc" fails local validation in
a detected WebView environment, sending nothing. -/
theorem authenticate_local_validation_witness :
    "abc".length < 8 ∧
      authenticate ⟨⟨some ⟨true, "", []⟩⟩, .empty, []⟩ (some "abc") 0 30000 =
        (.immediate (.failed "nonce must be at least 8 alphanumeric characters"
          validationErrorCode), ⟨⟨some ⟨true, "", []⟩⟩, .empty, []⟩) :=
  ⟨by decide,
    (authenticate_local_validation ⟨⟨some ⟨true, "", []⟩⟩, .empty, []⟩ "abc" 0 30000
      (Or.inl (by decide))).2.2 (by decide)⟩

/-- C6: any two `register` calls during one process lifetime — the second
reached from the first through an arbitrary interleaving of further
registrations, resolves, timeout firings and teardowns — receive distinct
requestIds; and resolving either one of two distinct requestIds (so, in
particular, either of the two registered requests) leaves the other's
pending state unchanged in every table state: its table entry (with its
timer deadline) is found unchanged, its presence in the table is
unchanged, and its handle gains no completion — correlation is by
requestId only, with no cross-talk. -/
theorem register_lifetime_fresh_no_crosstalk :
    (∀ (tbl : CorrelationTable) (ops : List TableOp) (a₁ a₂ : String)
      (now₁ t₁ now₂ t₂ : Nat),
      (register tbl a₁ now₁ t₁).1 ≠
        (register (runOps (register tbl a₁ now₁ t₁).2 ops) a₂ now₂ t₂).1) ∧
    (∀ (tbl : CorrelationTable) (id₁ id₂ : Nat) (r : TransactionResult), id₁ ≠ id₂ →
      ((resolve tbl id₁ r).pending.find? fun p => p.requestId == id₂) =
        (tbl.pending.find? fun p => p.requestId == id₂) ∧
      containsId (resolve tbl id₁ r).pending id₂ = containsId tbl.pending id₂ ∧
      countCompleted (resolve tbl id₁ r) id₂ = countCompleted tbl id₂) := by
  constructor
  · intro tbl ops a₁ a₂ now₁ t₁ now₂ t₂
    have h := nextId_le_runOps (register tbl a₁ now₁ t₁).2 ops
    exact Nat.ne_of_lt (Nat.lt_of_lt_of_le (Nat.lt_succ_self tbl.nextId) h)
  · intro tbl id₁ id₂ r hne
    have himp : ∀ p : PendingRequest,
        (p.requestId == id₂) = true → (p.requestId != id₁) = true := by
      intro p hp
      have hp₂ : p.requestId = id₂ := by simpa using hp
      simp [bne_iff_ne, hp₂, Ne.symm hne]
    by_cases hc : containsId tbl.pending id₁ = true
    · have hres : resolve tbl id₁ r =
          { tbl with
              pending := removePending tbl.pending id₁
              completions := (id₁, r) :: tbl.completions } := by
        simp [resolve, hc]
      rw [hres]
      refine ⟨find?_filter_of_imp _ _ _ himp, any_filter_of_imp _ _ _ himp, ?_⟩
      simp [countCompleted, List.filter_cons, hne]
    · simp [resolve, hc]

/-- Witness for C6: two concurrent deposit registrations separated by an
intervening resolve still get distinct ids, and resolving id 0 in a table
holding requests 0 and 1 leaves request 1's handle uncompleted. -/
theorem register_lifetime_fresh_no_crosstalk_witness :
    (0 : Nat) ≠ 1 ∧
      (register CorrelationTable.empty "DEPOSIT" 0 30000).1 ≠
        (register (runOps (register CorrelationTable.empty "DEPOSIT" 0 30000).2
          [TableOp.resolveOp 0 TransactionResult.cancelled]) "DEPOSIT" 1 30000).1 ∧
      countCompleted
        (resolve ⟨2, [⟨1, "DEPOSIT", 1, 30001, false⟩, ⟨0, "DEPOSIT", 0, 30000, false⟩], []⟩
          0 TransactionResult.cancelled) 1 =
        countCompleted
          ⟨2, [⟨1, "DEPOSIT", 1, 30001, false⟩, ⟨0, "DEPOSIT", 0, 30000, false⟩], []⟩ 1 :=
  ⟨by decide,
   register_lifetime_fresh_no_crosstalk.1 CorrelationTable.empty
     [TableOp.resolveOp 0 TransactionResult.cancelled] "DEPOSIT" "DEPOSIT" 0 30000 1 30000,
   (register_lifetime_fresh_no_crosstalk.2
     ⟨2, [⟨1, "DEPOSIT", 1, 30001, false⟩, ⟨0, "DEPOSIT", 0, 30000, false⟩], []⟩
     0 1 TransactionResult.cancelled (by decide)).2.2⟩

/-- C8: mounting the MiniApp component issues exactly one `authenticate()`
call, in every environment — including when `isWebView()` reports false
and the "Not in Lemon Cash" screen is rendered — because the environment
check gates only the rendered output, not the mount-time effect. -/
theorem mount_always_authenticates :
    (∀ env : JsEnv, (mount env).2 = [SdkCall.authenticateCall]) ∧
    (∀ env : JsEnv, (mount env).2.count SdkCall.authenticateCall = 1) ∧
    (∀ env : JsEnv, isWebView env = false →
      (mount env).1 = View.notWebView ∧ (mount env).2 = [SdkCall.authenticateCall]) := by
  refine ⟨fun _ => rfl, fun _ => rfl, fun env h => ⟨?_, rfl⟩⟩
  simp [mount, render, h]

/-- Witness for C8: in a headless environment the fallback screen is
rendered, yet the mount still issues the single authenticate call. -/
theorem mount_always_authenticates_witness :
    isWebView ⟨none⟩ = false ∧
      (mount ⟨none⟩).1 = View.notWebView ∧
      (mount ⟨none⟩).2 = [SdkCall.authenticateCall] :=
  ⟨rfl, mount_always_authenticates.2.2 ⟨none⟩ rfl⟩

/-- C9: in every rendered state the deposit button is disabled whenever
`wallet` is undefined or `isLoading` is true; a deposit can be initiated
only when a wallet is present and no request is in flight; and
`handleAuthentication` can change the wallet state only when the awaited
`authenticate()` returned SUCCESS. -/
theorem deposit_button_gating :
    (∀ (env : JsEnv) (s : MiniAppState), s.wallet = none ∨ s.isLoading = true →
      depositEnabled (render env s) = false) ∧
    (∀ (env : JsEnv) (s : MiniAppState), depositEnabled (render env s) = true →
      s.wallet ≠ none ∧ s.isLoading = false) ∧
    (∀ (s : MiniAppState) (res : SdkOutcome AuthResponse),
      (handleAuthentication s res).wallet ≠ s.wallet →
      ∃ w sig m, res = .ok (.success w sig m)) := by
  refine ⟨?_, ?_, ?_⟩
  · intro env s h
    by_cases hv : isWebView env
    · rcases h with h | h <;> simp [render, depositEnabled, hv, walletFalsy, h]
    · simp [render, depositEnabled, hv]
  · intro env s h
    by_cases hv : isWebView env
    · simp only [render, hv, Bool.not_true, Bool.false_eq_true, if_false,
        depositEnabled, Bool.not_eq_eq_eq_not, Bool.not_false, Bool.or_eq_false_iff] at h
      refine ⟨?_, h.2⟩
      intro hw
      rw [hw] at h
      exact absurd h.1 (by simp [walletFalsy])
    · simp [render, depositEnabled, hv] at h
  · intro s res h
    match res with
    | .ok (.success w sig m) => exact ⟨w, sig, m, rfl⟩
    | .ok (.failed e) => simp [handleAuthentication] at h
    | .ok .cancelled => simp [handleAuthentication] at h
    | .thrown e => simp [handleAuthentication] at h

/-- Witness for C9: on the just-mounted state (no wallet yet) inside the
WebView, the deposit button is disabled. -/
theorem deposit_button_gating_witness :
    depositEnabled (render ⟨some ⟨true, "", []⟩⟩ initialMiniAppState) = false :=
  deposit_button_gating.1 ⟨some ⟨true, "", []⟩⟩ initialMiniAppState (Or.inl rfl)

/-- C10: both handlers terminate with `isLoading` back to false for every
outcome (SUCCESS, FAILED, CANCELLED, or a thrown error), and a thrown SDK
error never escapes: each handler is a total function that converts it
into the on-screen error message. -/
theorem handlers_clear_loading_and_catch :
    (∀ (s : MiniAppState) (res : SdkOutcome AuthResponse),
      (handleAuthentication s res).isLoading = false) ∧
    (∀ (s : MiniAppState) (res : SdkOutcome DepositResponse),
      (handleDeposit s res).isLoading = false) ∧
    (∀ (s : MiniAppState) (e : String),
      (handleAuthentication s (.thrown e)).message = "Authentication error occurred") ∧
    (∀ (s : MiniAppState) (e : String),
      (handleDeposit s (.thrown e)).message = "Deposit error occurred") := by
  refine ⟨fun s res => ?_, fun s res => ?_, fun s e => rfl, fun s e => rfl⟩
  · rcases res with res | e
    · rcases res with ⟨w, sig, m⟩ | e | _ <;> rfl
    · rfl
  · rcases res with res | e
    · rcases res with tx | em | _ <;> rfl
    · rfl

end Lemonade
